import Mathlib

/-!
# A shallow embedding of the learning_journal application (src/journal.py)

The journal core is embedded as pure Lean functions over an explicit store
state.  Entries live in a relational table modelled as a list; the database
clock (`datetime.datetime.utcnow`) is passed explicitly as a `Nat` timestamp;
the auto-increment id counter is part of the store.  External collaborators
(the markdown renderer, bcrypt password manager, strftime) are modelled as
small executable functions; the claims proved below do not depend on their
internals.
-/

namespace Journal

/-- A Python exception that can escape or be caught inside a view.
`psycopg2NotNull` models the psycopg2 error raised when the store writes a
row violating a `nullable=False` column; `noResultFound` and
`multipleResultsFound` model the sqlalchemy exceptions raised by `.one()`
in `Entry.by_id`; `attributeError` models calling a method on `None`. -/
inductive PyExc where
  | psycopg2NotNull
  | noResultFound
  | multipleResultsFound
  | attributeError
deriving DecidableEq, Repr

/-- One row of the `entries` table: `id` (integer primary key, autoincrement),
`title` (`Unicode(127)`, not null), `text` (`UnicodeText`, not null),
`created` (`DateTime`, not null).  Stored rows always satisfy the not-null
constraints, so `title` and `text` are plain strings here. -/
structure Entry where
  id : Nat
  title : String
  text : String
  created : Nat
deriving DecidableEq, Repr

/-- The entries table together with the autoincrement counter for the next
primary key the store will assign. -/
structure Store where
  entries : List Entry
  nextId : Nat
deriving DecidableEq, Repr

/-- An inbound request as the views see it: `request.authenticated_userid`,
`request.method`, and the form/query parameters the views read
(`title`, `text`, `id`, `username`, `password`), each absent or present. -/
structure Request where
  authenticated_userid : Option String
  method : String
  title : Option String
  text : Option String
  idParam : Option Nat
  username : Option String
  password : Option String
deriving DecidableEq, Repr

/-- The outcome of a view.  `ok` is a successfully rendered payload;
`forbidden` is `HTTPForbidden` (403); `internalServerError` is
`HTTPInternalServerError` (500); `notFound` is an HTTP 404 response — the
views of this module never construct it, it exists so that statements about
"fails with NotFoundError / 404" can be written down; `uncaught` is a Python
exception propagating out of the view unhandled (the framework turns it into
a generic server failure); `nonePage` is a view falling off the end and
returning Python `None`. -/
inductive ViewResponse (α : Type) where
  | ok : α → ViewResponse α
  | forbidden : ViewResponse α
  | internalServerError : ViewResponse α
  | notFound : ViewResponse α
  | uncaught : PyExc → ViewResponse α
  | nonePage : ViewResponse α
deriving DecidableEq, Repr

/-- The JSON dictionary built by `Entry.json_detail` / `Entry.json_edit`:
`{'title': ..., 'text': ..., 'created': ..., 'id': ...}`. -/
structure JsonRepr where
  title : String
  text : String
  created : String
  id : Nat
deriving DecidableEq, Repr

/-- Helper of the markdown model: whether the raw text opens with the `##`
heading marker. -/
def startsWithHashHash : List Char → Bool
  | '#' :: '#' :: _ => true
  | _ => false

/-- Models the external Markdown Renderer collaborator,
`markdown.markdown(text, extensions=['codehilite', 'fenced_code'])`.
Only the scenario-level shape observed in the tests is reflected
(`##heading` becomes an `<h2>` element, other text a paragraph); the
theorems below treat the renderer as a black box. -/
def markdown_markdown (text : String) : String :=
  if startsWithHashHash text.data then
    "<h2>" ++ String.mk (text.data.drop 2) ++ "</h2>"
  else "<p>" ++ text ++ "</p>"

/-- Models the external strftime collaborator: formatting the `created`
timestamp with the format string `'%b %d, %Y'` into a date string. -/
def strftime_date (created : Nat) : String :=
  "%b %d, %Y:" ++ toString created

/-- Models the external `cryptacular.bcrypt.BCRYPTPasswordManager.encode`:
a one-way salted hash of a password. -/
def bcrypt_encode (password : String) : String :=
  "bcrypt$" ++ password

/-- Models `BCRYPTPasswordManager.check(hashed, password)`: verifies a
password against a stored hash without reconstructing the plaintext. -/
def bcrypt_check (hashed password : String) : Bool :=
  hashed == bcrypt_encode password

/-- The configured credential pair: `settings['auth.username']` and
`settings['auth.password']` (the bcrypt hash). -/
structure Settings where
  authUsername : String
  authPassword : String
deriving DecidableEq, Repr

/-- The SQL ordering `Entry.created.desc()`: `a` comes no later than `b`
when `a.created` is at least `b.created`. -/
def createdDesc (a b : Entry) : Prop := b.created ≤ a.created

instance : DecidableRel createdDesc := fun a b => Nat.decLe b.created a.created

instance : IsTotal Entry createdDesc := ⟨fun a b => Nat.le_total b.created a.created⟩

instance : IsTrans Entry createdDesc :=
  ⟨fun _ _ _ h1 h2 => Nat.le_trans h2 h1⟩

/-- The store executing `order_by(Entry.created.desc())`: a stable sort of
the table rows by `created` descending (rows with equal timestamps keep
their table order, older rows first). -/
def sortByCreatedDesc (l : List Entry) : List Entry :=
  l.insertionSort createdDesc

/-- `Entry.all()`: `DBSession.query(cls).order_by(cls.created.desc()).all()`. -/
def Entry.all (s : Store) : List Entry :=
  sortByCreatedDesc s.entries

/-- `Entry.by_id(id)`: `DBSession.query(cls).filter(cls.id == id).one()`.
`.one()` raises `NoResultFound` when no row matches and
`MultipleResultsFound` when several do; SQL equality against a missing
(`NULL`) id parameter matches nothing. -/
def Entry.by_id (s : Store) (i : Option Nat) : Except PyExc Entry :=
  match s.entries.filter (fun e => some e.id == i) with
  | [] => .error .noResultFound
  | [e] => .ok e
  | _ :: _ :: _ => .error .multipleResultsFound

/-- `Entry.from_request(request)`: reads `title` and `text` from the request
parameters (each `None` when missing), stamps `created` with `utcnow`, and
adds the new row to the session.  The store assigns the autoincrement id;
writing a `NULL` into a `nullable=False` column fails at the store boundary
with a psycopg2 error and nothing is committed. -/
def Entry.from_request (s : Store) (now : Nat) (req : Request) :
    Except PyExc Store :=
  match req.title, req.text with
  | some t, some x =>
      .ok { entries := s.entries ++ [{ id := s.nextId, title := t, text := x,
                                       created := now }],
            nextId := s.nextId + 1 }
  | _, _ => .error .psycopg2NotNull

/-- `Entry.desc_new()`:
`DBSession.query(cls).order_by(cls.created.desc()).first()` — the first row
of the descending-`created` ordering, or `None` on an empty table. -/
def Entry.desc_new (s : Store) : Option Entry :=
  (sortByCreatedDesc s.entries).head?

/-- `Entry.json_detail(self)`: the detail JSON dictionary, with `text` run
through the markdown renderer and `created` formatted by strftime. -/
def Entry.json_detail (e : Entry) : JsonRepr :=
  { title := e.title
    text := markdown_markdown e.text
    created := strftime_date e.created
    id := e.id }

/-- `Entry.json_edit(self)`: the edit JSON dictionary, with `text` left as
the raw unrendered markup. -/
def Entry.json_edit (e : Entry) : JsonRepr :=
  { title := e.title
    text := e.text
    created := strftime_date e.created
    id := e.id }

/-- `Entry.editing(self, request)`: overwrites `title` and `text` from the
request parameters.  A missing parameter writes `NULL` into a
`nullable=False` column, which fails at the store boundary with a psycopg2
error; nothing else on the row is touched. -/
def Entry.editing (e : Entry) (req : Request) : Except PyExc Entry :=
  match req.title, req.text with
  | some t, some x => .ok { e with title := t, text := x }
  | _, _ => .error .psycopg2NotNull

/-- `Entry.render_markdown(self)`: runs the row's raw `text` through the
markdown collaborator. -/
def Entry.render_markdown (e : Entry) : String :=
  markdown_markdown e.text

/-- The store updating a mutated ORM row in place: the row with the same
primary key is replaced, every other row keeps its position. -/
def Store.update (s : Store) (e : Entry) : Store :=
  { s with entries := s.entries.map (fun x => if x.id == e.id then e else x) }

/-- The well-formedness the autoincrement store maintains: every stored id
is below the next id to be assigned (so ids are fresh and unique). -/
def Store.WF (s : Store) : Prop :=
  ∀ e ∈ s.entries, e.id < s.nextId

/-- The `add` view (`POST /add`): requires an authenticated identity, else
`HTTPForbidden`; inserts the entry from the request, catching store errors
as `HTTPInternalServerError`; on success returns `Entry.desc_new()` rendered
as detail JSON. -/
def add_entry (s : Store) (now : Nat) (req : Request) :
    Store × ViewResponse JsonRepr :=
  if req.authenticated_userid.isSome then
    if req.method == "POST" then
      match Entry.from_request s now req with
      | .error _ => (s, .internalServerError)
      | .ok s2 =>
          match Entry.desc_new s2 with
          | some entry => (s2, .ok entry.json_detail)
          | none => (s2, .uncaught .attributeError)
    else (s, .nonePage)
  else (s, .forbidden)

/-- The `home` view (`GET /`): returns `{'entries': Entry.all()}`.  It never
reads the identity and never writes the store. -/
def read_entries (s : Store) (_req : Request) : List Entry :=
  Entry.all s

/-- The `detail` view (`GET /detail/{id}`): returns `{'entry':
Entry.by_id(id)}`; an exception from `by_id` is not handled and escapes. -/
def detail_entry (s : Store) (i : Nat) : ViewResponse Entry :=
  match Entry.by_id s (some i) with
  | .ok e => .ok e
  | .error exc => .uncaught exc

/-- The `edit` view (`GET|POST /edit?id=`): requires an authenticated
identity, else `HTTPForbidden`; looks the entry up by the `id` parameter (an
exception from `by_id` escapes unhandled); `GET` returns the edit JSON,
`POST` applies the edit (store errors caught as `HTTPInternalServerError`)
and returns the detail JSON of the updated row. -/
def edit (s : Store) (req : Request) : Store × ViewResponse JsonRepr :=
  if req.authenticated_userid.isSome then
    match Entry.by_id s req.idParam with
    | .error exc => (s, .uncaught exc)
    | .ok entry =>
        if req.method == "GET" then
          (s, .ok entry.json_edit)
        else if req.method == "POST" then
          match entry.editing req with
          | .error _ => (s, .internalServerError)
          | .ok entry2 => (s.update entry2, .ok entry2.json_detail)
        else (s, .nonePage)
  else (s, .forbidden)

/-- `do_login(request)`: raises `ValueError` (the validation failure) when
`username` or `password` is missing or empty; compares the username against
the configured one and, on a match, verifies the password against the
configured hash; a wrong username falls through and returns Python `None`
(falsy), not an error. -/
def do_login (settings : Settings) (req : Request) :
    Except String (Option Bool) :=
  match req.username, req.password with
  | some u, some p =>
      if u == "" || p == "" then
        .error "both username and password are required"
      else if u == settings.authUsername then
        .ok (some (bcrypt_check settings.authPassword p))
      else
        .ok none
  | _, _ => .error "both username and password are required"

/-- Iterated calls of the `edit` view: the store after a sequence of
requests, each handled by `edit`. -/
def applyEdits (s : Store) (reqs : List Request) : Store :=
  reqs.foldl (fun s r => (edit s r).1) s

/-! ## Helper lemmas about the store ordering and lookups -/

/-- The descending-`created` ordering returns a permutation of the table. -/
theorem sortByCreatedDesc_perm (l : List Entry) :
    List.Perm (sortByCreatedDesc l) l :=
  List.perm_insertionSort createdDesc l

/-- The descending-`created` ordering is sorted for `createdDesc`. -/
theorem sortByCreatedDesc_sorted (l : List Entry) :
    List.Sorted createdDesc (sortByCreatedDesc l) :=
  List.sorted_insertionSort createdDesc l

/-- A member of the table satisfying the filter of a singleton filter result
is that singleton. -/
theorem filter_singleton_mem {p : Entry → Bool} {l : List Entry} {a x : Entry}
    (h : l.filter p = [a]) (hx : x ∈ l) (hpx : p x = true) : x = a := by
  have hxf : x ∈ l.filter p := List.mem_filter.2 ⟨hx, hpx⟩
  rw [h] at hxf
  simpa using hxf

instance (s : Store) : Decidable (Store.WF s) :=
  inferInstanceAs (Decidable (∀ e ∈ s.entries, e.id < s.nextId))

/-- A singleton id filter result makes `by_id` succeed with that row. -/
theorem by_id_of_filter {s : Store} {i : Option Nat} {e : Entry}
    (h : s.entries.filter (fun x => some x.id == i) = [e]) :
    Entry.by_id s i = .ok e := by
  unfold Entry.by_id
  rw [h]

/-- A successful `by_id` means the id filter selected exactly that row. -/
theorem by_id_ok_filter {s : Store} {i : Option Nat} {e : Entry}
    (h : Entry.by_id s i = .ok e) :
    s.entries.filter (fun x => some x.id == i) = [e] := by
  unfold Entry.by_id at h
  rcases hf : s.entries.filter (fun x => some x.id == i) with _ | ⟨a, _ | ⟨b, t⟩⟩ <;>
    rw [hf] at h
  · cases h
  · cases h
    exact hf
  · cases h

/-- The first row of the descending-`created` ordering has the greatest
`created` timestamp of the table. -/
theorem head_sortByCreatedDesc_max {l : List Entry} {h : Entry}
    (hh : (sortByCreatedDesc l).head? = some h) :
    ∀ x ∈ l, x.created ≤ h.created := by
  intro x hx
  have hs : List.Sorted createdDesc (sortByCreatedDesc l) :=
    sortByCreatedDesc_sorted l
  have hp : List.Perm (sortByCreatedDesc l) l := sortByCreatedDesc_perm l
  have hx' : x ∈ sortByCreatedDesc l := hp.mem_iff.2 hx
  rcases hM : sortByCreatedDesc l with _ | ⟨h', t'⟩
  · rw [hM] at hx'
    cases hx'
  · rw [hM] at hh hx' hs
    have hh' : h' = h := by simpa using hh
    subst hh'
    rcases List.mem_cons.1 hx' with rfl | hxt
    · exact Nat.le_refl _
    · exact List.rel_of_sorted_cons hs x hxt

/-- The descending-`created` ordering of a nonempty table has a first row. -/
theorem sortByCreatedDesc_append_ne_nil (l : List Entry) (e : Entry) :
    sortByCreatedDesc (l ++ [e]) ≠ [] := by
  intro h0
  have hlen := (sortByCreatedDesc_perm (l ++ [e])).length_eq
  rw [h0] at hlen
  simp at hlen

/-- The first row of the stable descending-`created` ordering of the table
with a freshly appended row is either a pre-existing row, or the appended
row — and in the latter case every pre-existing row is strictly older. -/
theorem head_sortByCreatedDesc_append :
    ∀ (l : List Entry) (e h : Entry),
      (sortByCreatedDesc (l ++ [e])).head? = some h →
      h ∈ l ∨ (h = e ∧ ∀ x ∈ l, x.created < e.created) := by
  intro l
  induction l with
  | nil =>
    intro e h hh
    right
    refine ⟨?_, by intro x hx; cases hx⟩
    have : (sortByCreatedDesc ([] ++ [e])).head? = some e := rfl
    rw [this] at hh
    exact (Option.some.injEq _ _ ▸ hh).symm
  | cons a l ih =>
    intro e h hh
    rcases hM : sortByCreatedDesc (l ++ [e]) with _ | ⟨h', t'⟩
    · exact absurd hM (sortByCreatedDesc_append_ne_nil l e)
    · have hstep : sortByCreatedDesc ((a :: l) ++ [e]) =
          List.orderedInsert createdDesc a (sortByCreatedDesc (l ++ [e])) := rfl
      rw [hstep, hM] at hh
      by_cases hr : createdDesc a h'
      · rw [List.orderedInsert, if_pos hr] at hh
        have : a = h := by simpa using hh
        exact Or.inl (this ▸ List.mem_cons_self a l)
      · rw [List.orderedInsert, if_neg hr] at hh
        have hh'h : h' = h := by
          rcases ht' : List.orderedInsert createdDesc a t' with _ | ⟨c, cs⟩ <;>
            rw [ht'] at hh <;> simpa using hh
        subst hh'h
        have hrec := ih e h' (by rw [hM]; rfl)
        rcases hrec with hmem | ⟨rfl, hall⟩
        · exact Or.inl (List.mem_cons_of_mem a hmem)
        · refine Or.inr ⟨rfl, ?_⟩
          intro x hx
          rcases List.mem_cons.1 hx with rfl | hxl
          · exact Nat.lt_of_not_le hr
          · exact hall x hxl

/-! ## The claims -/

/-- C1: each privileged operation — create_entry (`POST /add`), begin_edit
(`GET /edit`) and apply_edit (`POST /edit`) — invoked without a present
authenticated identity fails with `AuthorizationError` (`HTTPForbidden`,
HTTP 403), whatever the title/text/id inputs are, and the store is not
mutated. -/
theorem privileged_ops_forbidden_without_identity (s : Store) (now : Nat)
    (req : Request) (h : req.authenticated_userid = none) :
    add_entry s now req = (s, .forbidden) ∧ edit s req = (s, .forbidden) := by
  constructor <;> simp [add_entry, edit, h]

/-- Witness for C1: a request with well-formed title, text and id but no
identity is rejected with 403 by both views, the store untouched. -/
theorem privileged_ops_forbidden_without_identity_witness :
    add_entry ⟨[], 1⟩ 7
        ⟨none, "POST", some "Hello there", some "##x", some 1, none, none⟩ =
      (⟨[], 1⟩, .forbidden) ∧
    edit ⟨[], 1⟩ ⟨none, "POST", some "Hello there", some "##x", some 1, none, none⟩ =
      (⟨[], 1⟩, .forbidden) :=
  privileged_ops_forbidden_without_identity ⟨[], 1⟩ 7
    ⟨none, "POST", some "Hello there", some "##x", some 1, none, none⟩ rfl

/-- C6: create_entry with a present identity but a missing title or text
fails at the store boundary (`Entry.from_request` surfaces the psycopg2
not-null violation), the view catches it as `HTTPInternalServerError`
(HTTP 500), and the store is unchanged — there is no pre-validated
rejection. -/
theorem missing_field_is_store_error (s : Store) (now : Nat) (req : Request)
    (hauth : req.authenticated_userid.isSome = true)
    (hm : req.method = "POST")
    (hmiss : req.title = none ∨ req.text = none) :
    Entry.from_request s now req = .error .psycopg2NotNull ∧
    add_entry s now req = (s, .internalServerError) := by
  have hfr : Entry.from_request s now req = .error .psycopg2NotNull := by
    rcases hmiss with h1 | h1 <;>
      rcases ht : req.title with _ | t <;>
      rcases hx : req.text with _ | x <;>
      simp [Entry.from_request, ht, hx] <;>
      simp [ht, hx] at h1
  refine ⟨hfr, ?_⟩
  simp [add_entry, hauth, hm, hfr]

/-- Witness for C6: an authenticated `POST /add` with a title but no text is
answered with HTTP 500 and commits nothing. -/
theorem missing_field_is_store_error_witness :
    Entry.from_request ⟨[], 1⟩ 7
        ⟨some "admin", "POST", some "Hello there", none, none, none, none⟩ =
      .error .psycopg2NotNull ∧
    add_entry ⟨[], 1⟩ 7
        ⟨some "admin", "POST", some "Hello there", none, none, none, none⟩ =
      (⟨[], 1⟩, .internalServerError) :=
  missing_field_is_store_error ⟨[], 1⟩ 7
    ⟨some "admin", "POST", some "Hello there", none, none, none, none⟩
    rfl rfl (Or.inr rfl)

/-- C7: the home listing needs no identity (its result does not depend on
the request at all), performs no store mutation (it is a pure function of
the store), and returns the entries ordered by `created` descending, so a
first entry always carries the greatest `created` timestamp of the table. -/
theorem read_entries_sorted_desc (s : Store) (req1 req2 : Request) :
    read_entries s req1 = read_entries s req2 ∧
    List.Perm (read_entries s req1) s.entries ∧
    List.Sorted createdDesc (read_entries s req1) ∧
    (∀ h, (read_entries s req1).head? = some h →
      ∀ e ∈ s.entries, e.created ≤ h.created) :=
  ⟨rfl, sortByCreatedDesc_perm s.entries, sortByCreatedDesc_sorted s.entries,
    fun _ hh e he => head_sortByCreatedDesc_max hh e he⟩

/-- Witness for C7: on a concrete three-entry store the listing is the same
for an anonymous and an authenticated request, is a permutation of the
table sorted by `created` descending, and its first entry is newest. -/
theorem read_entries_sorted_desc_witness :
    read_entries ⟨[⟨1, "a", "x", 5⟩, ⟨2, "b", "y", 9⟩, ⟨3, "c", "z", 7⟩], 4⟩
        ⟨none, "GET", none, none, none, none, none⟩ =
      read_entries ⟨[⟨1, "a", "x", 5⟩, ⟨2, "b", "y", 9⟩, ⟨3, "c", "z", 7⟩], 4⟩
        ⟨some "admin", "GET", none, none, none, none, none⟩ ∧
    List.Perm
      (read_entries ⟨[⟨1, "a", "x", 5⟩, ⟨2, "b", "y", 9⟩, ⟨3, "c", "z", 7⟩], 4⟩
        ⟨none, "GET", none, none, none, none, none⟩)
      [⟨1, "a", "x", 5⟩, ⟨2, "b", "y", 9⟩, ⟨3, "c", "z", 7⟩] ∧
    List.Sorted createdDesc
      (read_entries ⟨[⟨1, "a", "x", 5⟩, ⟨2, "b", "y", 9⟩, ⟨3, "c", "z", 7⟩], 4⟩
        ⟨none, "GET", none, none, none, none, none⟩) ∧
    (∀ h,
      (read_entries ⟨[⟨1, "a", "x", 5⟩, ⟨2, "b", "y", 9⟩, ⟨3, "c", "z", 7⟩], 4⟩
          ⟨none, "GET", none, none, none, none, none⟩).head? = some h →
      ∀ e ∈ [(⟨1, "a", "x", 5⟩ : Entry), ⟨2, "b", "y", 9⟩, ⟨3, "c", "z", 7⟩],
        e.created ≤ h.created) :=
  read_entries_sorted_desc ⟨[⟨1, "a", "x", 5⟩, ⟨2, "b", "y", 9⟩, ⟨3, "c", "z", 7⟩], 4⟩
    ⟨none, "GET", none, none, none, none, none⟩
    ⟨some "admin", "GET", none, none, none, none, none⟩

/-- C5 counterexample: on the empty store, looking up id 1 makes the detail
view and both edit modes (GET and POST, authenticated) propagate the
unhandled `NoResultFound` raised by `.one()` — a generic server failure —
and none of them produces an HTTP 404 `NotFoundError` response. -/
theorem unknown_id_counterexample :
    detail_entry ⟨[], 1⟩ 1 = .uncaught .noResultFound ∧
    detail_entry ⟨[], 1⟩ 1 ≠ (.notFound : ViewResponse Entry) ∧
    edit ⟨[], 1⟩ ⟨some "admin", "GET", none, none, some 1, none, none⟩ =
      (⟨[], 1⟩, .uncaught .noResultFound) ∧
    edit ⟨[], 1⟩ ⟨some "admin", "POST", some "t", some "x", some 1, none, none⟩ =
      (⟨[], 1⟩, .uncaught .noResultFound) ∧
    (edit ⟨[], 1⟩ ⟨some "admin", "GET", none, none, some 1, none, none⟩).2 ≠
      (.notFound : ViewResponse JsonRepr) ∧
    (edit ⟨[], 1⟩ ⟨some "admin", "POST", some "t", some "x", some 1, none, none⟩).2 ≠
      (.notFound : ViewResponse JsonRepr) :=
  ⟨rfl, fun h => ViewResponse.noConfusion h, rfl, rfl,
    fun h => ViewResponse.noConfusion h, fun h => ViewResponse.noConfusion h⟩

/-- C5 amended: for every id that matches no stored entry, view_entry
(`GET /detail/{id}`) and the authenticated begin_edit/apply_edit
(`GET|POST /edit`) fail by propagating the store lookup's `NoResultFound`
exception unhandled — a generic server failure, not an HTTP 404
`NotFoundError` response. -/
theorem unknown_id_generic_failure (s : Store) (i : Nat) (req : Request)
    (hid : ∀ e ∈ s.entries, e.id ≠ i)
    (hauth : req.authenticated_userid.isSome = true)
    (hreq : req.idParam = some i) :
    detail_entry s i = .uncaught .noResultFound ∧
    edit s req = (s, .uncaught .noResultFound) := by
  have hfil : s.entries.filter (fun e => some e.id == some i) = [] := by
    refine List.filter_eq_nil_iff.2 ?_
    intro e he
    simpa using hid e he
  have hby : Entry.by_id s (some i) = .error .noResultFound := by
    unfold Entry.by_id
    rw [hfil]
  constructor
  · simp [detail_entry, hby]
  · simp [edit, hauth, hreq, hby]

/-- Witness for C5 amended: a store holding only entry 1, asked about id 2
by an authenticated request, leaks `NoResultFound` from both views. -/
theorem unknown_id_generic_failure_witness :
    detail_entry ⟨[⟨1, "a", "x", 5⟩], 2⟩ 2 = .uncaught .noResultFound ∧
    edit ⟨[⟨1, "a", "x", 5⟩], 2⟩ ⟨some "admin", "GET", none, none, some 2, none, none⟩ =
      (⟨[⟨1, "a", "x", 5⟩], 2⟩, .uncaught .noResultFound) :=
  unknown_id_generic_failure ⟨[⟨1, "a", "x", 5⟩], 2⟩ 2
    ⟨some "admin", "GET", none, none, some 2, none, none⟩
    (by decide) rfl rfl

/-- C2: `do_login` fails with the `ValueError` validation failure when the
username or password is missing or empty; for a non-empty pair it returns a
truthy result exactly when the username equals the configured one and the
password verifies against the configured hash; every other non-empty pair
yields a falsy return value, not an error. -/
theorem do_login_contract (settings : Settings) (req : Request) (u p : String)
    (hu : req.username = some u) (hp : req.password = some p)
    (hune : u ≠ "") (hpne : p ≠ "") :
    (do_login settings req = .ok (some true) ↔
      u = settings.authUsername ∧
        bcrypt_check settings.authPassword p = true) ∧
    (∃ v, do_login settings req = .ok v ∧
      (v = some true ↔
        u = settings.authUsername ∧
          bcrypt_check settings.authPassword p = true)) ∧
    (∀ req2 : Request,
      (req2.username = none ∨ req2.username = some "" ∨
        req2.password = none ∨ req2.password = some "") →
      do_login settings req2 = .error "both username and password are required") := by
  have hne : ¬((u == "" || p == "") = true) := by
    simp [hune, hpne]
  have hdl : do_login settings req =
      if u = settings.authUsername then
        .ok (some (bcrypt_check settings.authPassword p))
      else .ok none := by
    by_cases hcu : u = settings.authUsername
    · rw [if_pos hcu]
      simp only [do_login, hu, hp]
      rw [if_neg hne, if_pos (show (u == settings.authUsername) = true by simp [hcu])]
    · rw [if_neg hcu]
      simp only [do_login, hu, hp]
      rw [if_neg hne, if_neg (show ¬((u == settings.authUsername) = true) by simp [hcu])]
  refine ⟨?_, ?_, ?_⟩
  · by_cases hcu : u = settings.authUsername
    · rw [hdl, if_pos hcu]
      simp [hcu]
    · rw [hdl, if_neg hcu]
      simp [hcu]
  · by_cases hcu : u = settings.authUsername
    · exact ⟨some (bcrypt_check settings.authPassword p),
        by rw [hdl, if_pos hcu], by simp [hcu]⟩
    · exact ⟨none, by rw [hdl, if_neg hcu], by simp [hcu]⟩
  · intro req2 hcase
    rcases h2u : req2.username with _ | u2 <;> rcases h2p : req2.password with _ | p2
    · simp [do_login, h2u, h2p]
    · simp [do_login, h2u, h2p]
    · simp [do_login, h2u, h2p]
    · have hep : u2 = "" ∨ p2 = "" := by
        rcases hcase with h1 | h1 | h1 | h1
        · rw [h2u] at h1
          cases h1
        · rw [h2u] at h1
          exact Or.inl (by injection h1)
        · rw [h2p] at h1
          cases h1
        · rw [h2p] at h1
          exact Or.inr (by injection h1)
      rcases hep with h1 | h1 <;> simp [do_login, h2u, h2p, h1]

/-- Witness for C2: with the configured pair admin / secret, the exact pair
verifies, a wrong password and a wrong username are falsy non-errors, and an
empty password is a validation error. -/
theorem do_login_contract_witness :
    (do_login ⟨"admin", bcrypt_encode "secret"⟩
        ⟨none, "POST", none, none, none, some "admin", some "secret"⟩ =
        .ok (some true) ↔
      "admin" = "admin" ∧
        bcrypt_check (bcrypt_encode "secret") "secret" = true) ∧
    (∃ v, do_login ⟨"admin", bcrypt_encode "secret"⟩
        ⟨none, "POST", none, none, none, some "admin", some "secret"⟩ = .ok v ∧
      (v = some true ↔
        "admin" = "admin" ∧
          bcrypt_check (bcrypt_encode "secret") "secret" = true)) ∧
    (∀ req2 : Request,
      (req2.username = none ∨ req2.username = some "" ∨
        req2.password = none ∨ req2.password = some "") →
      do_login ⟨"admin", bcrypt_encode "secret"⟩ req2 =
        .error "both username and password are required") :=
  do_login_contract ⟨"admin", bcrypt_encode "secret"⟩
    ⟨none, "POST", none, none, none, some "admin", some "secret"⟩
    "admin" "secret" rfl rfl (by decide) (by decide)

/-- One `edit` request, whatever it is, never changes the ids, the
`created` timestamps, the row order of the table, or the autoincrement
counter. -/
theorem edit_preserves_ids_createds (s : Store) (r : Request) :
    (edit s r).1.entries.map (fun x => (x.id, x.created)) =
      s.entries.map (fun x => (x.id, x.created)) ∧
    (edit s r).1.nextId = s.nextId := by
  rcases hauth : r.authenticated_userid with _ | ident
  · simp [edit, hauth]
  · rcases hby : Entry.by_id s r.idParam with exc | entry
    · simp [edit, hauth, hby]
    · by_cases hG : r.method = "GET"
      · simp [edit, hauth, hby, hG]
      · by_cases hP : r.method = "POST"
        · rcases hed : entry.editing r with exc | entry2
          · simp [edit, hauth, hby, hG, hP, hed]
          · have hfil := by_id_ok_filter hby
            have hpe : (some entry.id == r.idParam) = true := by
              have hmem : entry ∈ s.entries.filter
                  (fun x => some x.id == r.idParam) := by
                rw [hfil]
                exact List.mem_cons_self _ _
              exact (List.mem_filter.1 hmem).2
            have hid2 : entry2.id = entry.id ∧ entry2.created = entry.created := by
              rcases ht : r.title with _ | t <;> rcases hx : r.text with _ | x <;>
                simp [Entry.editing, ht, hx] at hed
              rw [← hed]
              exact ⟨rfl, rfl⟩
            have hmap : (Store.update s entry2).entries.map
                  (fun x => (x.id, x.created)) =
                s.entries.map (fun x => (x.id, x.created)) := by
              show (s.entries.map _).map _ = _
              rw [List.map_map]
              refine List.map_congr_left ?_
              intro x hx
              by_cases hxe : (x.id == entry2.id) = true
              · have hxid : x.id = entry2.id := by simpa using hxe
                have hxp : (some x.id == r.idParam) = true := by
                  rw [hxid, hid2.1]
                  exact hpe
                have hxent : x = entry := filter_singleton_mem hfil hx hxp
                simp only [Function.comp, hxe, if_pos]
                rw [hxent, hid2.1, hid2.2]
              · simp only [Function.comp]
                rw [if_neg]
                simp [hxe]
            have hfst : (edit s r).1 = Store.update s entry2 := by
              simp [edit, hauth, hby, hG, hP, hed]
            rw [hfst]
            exact ⟨hmap, rfl⟩
        · simp [edit, hauth, hby, hG, hP]

/-- C4: `Entry.editing` overwrites exactly the title and text with the
request's values and keeps the id and `created` timestamp, and across any
number of `edit` requests every stored row keeps its id and `created`
timestamp (and the store its autoincrement counter). -/
theorem apply_edit_frame (s : Store) (reqs : List Request)
    (e : Entry) (req : Request) (e2 : Entry)
    (hed : Entry.editing e req = .ok e2) :
    (applyEdits s reqs).entries.map (fun x => (x.id, x.created)) =
      s.entries.map (fun x => (x.id, x.created)) ∧
    (applyEdits s reqs).nextId = s.nextId ∧
    e2.id = e.id ∧ e2.created = e.created ∧
    req.title = some e2.title ∧ req.text = some e2.text := by
  have hmain : ∀ (rs : List Request) (s0 : Store),
      (applyEdits s0 rs).entries.map (fun x => (x.id, x.created)) =
        s0.entries.map (fun x => (x.id, x.created)) ∧
      (applyEdits s0 rs).nextId = s0.nextId := by
    intro rs
    induction rs with
    | nil =>
      intro s0
      exact ⟨rfl, rfl⟩
    | cons r rs ih =>
      intro s0
      have h1 := edit_preserves_ids_createds s0 r
      have h2 := ih (edit s0 r).1
      have hstep : applyEdits s0 (r :: rs) = applyEdits (edit s0 r).1 rs := rfl
      rw [hstep]
      exact ⟨h2.1.trans h1.1, h2.2.trans h1.2⟩
  have hprops : e2.id = e.id ∧ e2.created = e.created ∧
      req.title = some e2.title ∧ req.text = some e2.text := by
    rcases ht : req.title with _ | t <;> rcases hx : req.text with _ | x <;>
      simp [Entry.editing, ht, hx] at hed
    rw [← hed]
    exact ⟨rfl, rfl, rfl, rfl⟩
  exact ⟨(hmain reqs s).1, (hmain reqs s).2, hprops.1, hprops.2.1,
    hprops.2.2.1, hprops.2.2.2⟩

/-- Witness for C4: editing entry 1 of a one-entry store with a new title
and text keeps its id 1 and `created` 5 and the autoincrement counter 2. -/
theorem apply_edit_frame_witness :
    (applyEdits ⟨[⟨1, "a", "x", 5⟩], 2⟩
        [⟨some "admin", "POST", some "b", some "y", some 1, none, none⟩]).entries.map
        (fun x => (x.id, x.created)) =
      [(⟨1, "a", "x", 5⟩ : Entry)].map (fun x => (x.id, x.created)) ∧
    (applyEdits ⟨[⟨1, "a", "x", 5⟩], 2⟩
        [⟨some "admin", "POST", some "b", some "y", some 1, none, none⟩]).nextId = 2 ∧
    (⟨1, "b", "y", 5⟩ : Entry).id = (⟨1, "a", "x", 5⟩ : Entry).id ∧
    (⟨1, "b", "y", 5⟩ : Entry).created = (⟨1, "a", "x", 5⟩ : Entry).created ∧
    (⟨some "admin", "POST", some "b", some "y", some 1, none, none⟩ : Request).title =
      some (⟨1, "b", "y", 5⟩ : Entry).title ∧
    (⟨some "admin", "POST", some "b", some "y", some 1, none, none⟩ : Request).text =
      some (⟨1, "b", "y", 5⟩ : Entry).text :=
  apply_edit_frame ⟨[⟨1, "a", "x", 5⟩], 2⟩
    [⟨some "admin", "POST", some "b", some "y", some 1, none, none⟩]
    ⟨1, "a", "x", 5⟩ ⟨some "admin", "POST", some "b", some "y", some 1, none, none⟩
    ⟨1, "b", "y", 5⟩ rfl

/-- C8: begin_edit (`GET /edit`) answers with the edit representation —
raw unrendered `text` — while apply_edit (`POST /edit`) answers with the
detail representation — markdown-rendered HTML `text`; both carry the same
id and title as the entry and the same `created` formatted as a date
string. -/
theorem representation_contract (s : Store) (reqG reqP : Request)
    (e e2 : Entry)
    (hGauth : reqG.authenticated_userid.isSome = true)
    (hGm : reqG.method = "GET")
    (hGid : Entry.by_id s reqG.idParam = .ok e)
    (hPauth : reqP.authenticated_userid.isSome = true)
    (hPm : reqP.method = "POST")
    (hPid : Entry.by_id s reqP.idParam = .ok e)
    (hPed : Entry.editing e reqP = .ok e2) :
    edit s reqG = (s, .ok e.json_edit) ∧
    edit s reqP = (Store.update s e2, .ok e2.json_detail) ∧
    e.json_edit.text = e.text ∧
    e.json_detail.text = e.render_markdown ∧
    e.render_markdown = markdown_markdown e.text ∧
    e.json_edit.id = e.id ∧ e.json_detail.id = e.id ∧
    e.json_edit.title = e.title ∧ e.json_detail.title = e.title ∧
    e.json_edit.created = strftime_date e.created ∧
    e.json_detail.created = strftime_date e.created := by
  refine ⟨?_, ?_, rfl, rfl, rfl, rfl, rfl, rfl, rfl, rfl, rfl⟩
  · simp [edit, hGauth, hGid, hGm]
  · simp [edit, hPauth, hPid, hPm, hPed]

/-- Witness for C8: on a one-entry store with entry text `##x`, the
authenticated GET sees raw `##x` and the authenticated POST sees its
rendered replacement. -/
theorem representation_contract_witness :
    edit ⟨[⟨1, "a", "##x", 5⟩], 2⟩
        ⟨some "admin", "GET", none, none, some 1, none, none⟩ =
      (⟨[⟨1, "a", "##x", 5⟩], 2⟩, .ok (⟨1, "a", "##x", 5⟩ : Entry).json_edit) ∧
    edit ⟨[⟨1, "a", "##x", 5⟩], 2⟩
        ⟨some "admin", "POST", some "b", some "##y", some 1, none, none⟩ =
      (Store.update ⟨[⟨1, "a", "##x", 5⟩], 2⟩ ⟨1, "b", "##y", 5⟩,
        .ok (⟨1, "b", "##y", 5⟩ : Entry).json_detail) ∧
    (⟨1, "a", "##x", 5⟩ : Entry).json_edit.text = (⟨1, "a", "##x", 5⟩ : Entry).text ∧
    (⟨1, "a", "##x", 5⟩ : Entry).json_detail.text =
      (⟨1, "a", "##x", 5⟩ : Entry).render_markdown ∧
    (⟨1, "a", "##x", 5⟩ : Entry).render_markdown = markdown_markdown "##x" ∧
    (⟨1, "a", "##x", 5⟩ : Entry).json_edit.id = (⟨1, "a", "##x", 5⟩ : Entry).id ∧
    (⟨1, "a", "##x", 5⟩ : Entry).json_detail.id = (⟨1, "a", "##x", 5⟩ : Entry).id ∧
    (⟨1, "a", "##x", 5⟩ : Entry).json_edit.title = (⟨1, "a", "##x", 5⟩ : Entry).title ∧
    (⟨1, "a", "##x", 5⟩ : Entry).json_detail.title = (⟨1, "a", "##x", 5⟩ : Entry).title ∧
    (⟨1, "a", "##x", 5⟩ : Entry).json_edit.created = strftime_date 5 ∧
    (⟨1, "a", "##x", 5⟩ : Entry).json_detail.created = strftime_date 5 :=
  representation_contract ⟨[⟨1, "a", "##x", 5⟩], 2⟩
    ⟨some "admin", "GET", none, none, some 1, none, none⟩
    ⟨some "admin", "POST", some "b", some "##y", some 1, none, none⟩
    ⟨1, "a", "##x", 5⟩ ⟨1, "b", "##y", 5⟩
    rfl rfl rfl rfl rfl rfl rfl

/-- C3: for a valid (title, text) pair and a present identity, create_entry
commits a new entry under the fresh id, and view_entry of that id returns an
entry whose title and raw text equal the inputs and whose rendered text is
the markdown-to-HTML transformation of the input text. -/
theorem create_then_view (s : Store) (now : Nat) (ident title text : String)
    (hwf : s.WF) :
    ∃ e : Entry,
      detail_entry
          (add_entry s now
            ⟨some ident, "POST", some title, some text, none, none, none⟩).1
          s.nextId = .ok e ∧
      e.title = title ∧ e.text = text ∧
      e.render_markdown = markdown_markdown text := by
  refine ⟨⟨s.nextId, title, text, now⟩, ?_, rfl, rfl, rfl⟩
  have hfst : (add_entry s now
      ⟨some ident, "POST", some title, some text, none, none, none⟩).1 =
      ⟨s.entries ++ [⟨s.nextId, title, text, now⟩], s.nextId + 1⟩ := by
    cases hdn : Entry.desc_new
        ⟨s.entries ++ [⟨s.nextId, title, text, now⟩], s.nextId + 1⟩ <;>
      simp [add_entry, Entry.from_request, hdn]
  rw [hfst]
  have hfil : (s.entries ++ [(⟨s.nextId, title, text, now⟩ : Entry)]).filter
      (fun x => some x.id == some s.nextId) =
      [(⟨s.nextId, title, text, now⟩ : Entry)] := by
    rw [List.filter_append]
    have h1 : s.entries.filter (fun x => some x.id == some s.nextId) = [] := by
      refine List.filter_eq_nil_iff.2 ?_
      intro x hx
      have hlt := hwf x hx
      simp only [Option.some.injEq, beq_iff_eq]
      omega
    rw [h1]
    simp
  have hby : Entry.by_id ⟨s.entries ++ [⟨s.nextId, title, text, now⟩], s.nextId + 1⟩
      (some s.nextId) = .ok ⟨s.nextId, title, text, now⟩ :=
    by_id_of_filter hfil
  simp [detail_entry, hby]

/-- Witness for C3: creating "Hello there" / "##This is a post" on the
empty store and viewing entry 1 yields that title, that raw text, and the
rendered `<h2>` heading. -/
theorem create_then_view_witness :
    Store.WF ⟨[], 1⟩ ∧
    ∃ e : Entry,
      detail_entry
          (add_entry ⟨[], 1⟩ 7
            ⟨some "admin", "POST", some "Hello there", some "##This is a post",
              none, none, none⟩).1 1 = .ok e ∧
      e.title = "Hello there" ∧ e.text = "##This is a post" ∧
      e.render_markdown = markdown_markdown "##This is a post" :=
  ⟨by decide,
    create_then_view ⟨[], 1⟩ 7 "admin" "Hello there" "##This is a post" (by decide)⟩

/-- C10: on a successful create, the `add` view answers with
`Entry.desc_new()` — the first row of the `created`-descending ordering,
an entry of greatest `created` timestamp — not with a handle to the row it
just inserted; the answered entry is the newly created one exactly when the
new `created` timestamp is strictly newer than every pre-existing one. -/
theorem create_returns_newest (s : Store) (now : Nat) (ident title text : String)
    (hwf : s.WF) :
    ∃ h : Entry,
      Entry.desc_new ⟨s.entries ++ [⟨s.nextId, title, text, now⟩], s.nextId + 1⟩ =
        some h ∧
      add_entry s now ⟨some ident, "POST", some title, some text, none, none, none⟩ =
        (⟨s.entries ++ [⟨s.nextId, title, text, now⟩], s.nextId + 1⟩,
          .ok h.json_detail) ∧
      (∀ x ∈ s.entries ++ [⟨s.nextId, title, text, now⟩], x.created ≤ h.created) ∧
      ((h = ⟨s.nextId, title, text, now⟩) ↔ ∀ x ∈ s.entries, x.created < now) := by
  rcases hM : sortByCreatedDesc (s.entries ++ [⟨s.nextId, title, text, now⟩])
    with _ | ⟨h, t⟩
  · exact absurd hM
      (sortByCreatedDesc_append_ne_nil s.entries ⟨s.nextId, title, text, now⟩)
  have hh : (sortByCreatedDesc (s.entries ++ [⟨s.nextId, title, text, now⟩])).head? =
      some h := by
    rw [hM]
    rfl
  have hdn : Entry.desc_new ⟨s.entries ++ [⟨s.nextId, title, text, now⟩],
      s.nextId + 1⟩ = some h := hh
  refine ⟨h, hdn, ?_, ?_, ?_, ?_⟩
  · simp [add_entry, Entry.from_request, hdn]
  · intro x hx
    exact head_sortByCreatedDesc_max hh x hx
  · intro heq
    rcases head_sortByCreatedDesc_append s.entries ⟨s.nextId, title, text, now⟩ h hh
      with hmem | hright
    · exfalso
      have hlt := hwf h hmem
      rw [heq] at hlt
      exact Nat.lt_irrefl _ hlt
    · exact hright.2
  · intro hall
    rcases head_sortByCreatedDesc_append s.entries ⟨s.nextId, title, text, now⟩ h hh
      with hmem | hright
    · exfalso
      have h1 : h.created < now := hall h hmem
      have h2 : (⟨s.nextId, title, text, now⟩ : Entry).created ≤ h.created :=
        head_sortByCreatedDesc_max hh ⟨s.nextId, title, text, now⟩ (by simp)
      exact Nat.lt_irrefl _ (Nat.lt_of_le_of_lt h2 h1)
    · exact hright.1

/-- Witness for C10: on a store whose only entry was created at time 5,
adding at time 9 answers with the new entry (id 2), and the iff's
right-hand side holds. -/
theorem create_returns_newest_witness :
    Store.WF ⟨[⟨1, "a", "x", 5⟩], 2⟩ ∧
    ∃ h : Entry,
      Entry.desc_new ⟨[⟨1, "a", "x", 5⟩] ++ [⟨2, "b", "y", 9⟩], 3⟩ = some h ∧
      add_entry ⟨[⟨1, "a", "x", 5⟩], 2⟩ 9
          ⟨some "admin", "POST", some "b", some "y", none, none, none⟩ =
        (⟨[⟨1, "a", "x", 5⟩] ++ [⟨2, "b", "y", 9⟩], 3⟩, .ok h.json_detail) ∧
      (∀ x ∈ [⟨1, "a", "x", 5⟩] ++ [(⟨2, "b", "y", 9⟩ : Entry)],
        x.created ≤ h.created) ∧
      ((h = ⟨2, "b", "y", 9⟩) ↔
        ∀ x ∈ [(⟨1, "a", "x", 5⟩ : Entry)], x.created < 9) :=
  ⟨by decide, create_returns_newest ⟨[⟨1, "a", "x", 5⟩], 2⟩ 9 "admin" "b" "y" (by decide)⟩

end Journal
